import Mathlib

/-!
Shallow embedding of `src/embed.c` (dougvj/embed): a code generator that
embeds files into C source as three index-aligned tables (names, data,
sizes) plus a generated linear-scan lookup function.

Modelling conventions:
- A C byte is a `Nat` in 0..255; a C string is the list of its bytes before
  the terminating NUL (`CStr`), so it never contains a 0 byte.
- The filesystem is an association list from path to content bytes;
  `fsLookup` models `fopen(path, "r")` returning the whole readable content
  (`none` models a failed open, i.e. a NULL `FILE*`).
- Each emitter is modelled by the table it writes, entry by entry, at the
  level of the byte values appearing inside the emitted array literals
  (the hex/column formatting of the literals carries no information).
- `exit(1)` after a diagnostic is the `exitFail` outcome; an operation the
  C standard leaves undefined (dereferencing or seeking a null pointer,
  reading past the end of an array) is the `ub` outcome.
-/

namespace Embed

/-- A C string: the bytes strictly before its terminating NUL, each byte a
natural number in 0..255. -/
abbrev CStr := List Nat

/-- Bytes of a Lean string literal, for writing concrete C strings. -/
def cstr (s : String) : CStr := s.data.map (fun c => c.toNat)

/-- `PATH_SEPARATOR` from embed.c, the non-Windows branch: the byte of a forward slash. -/
def PATH_SEPARATOR : Nat := 47

/-- The loop body of `plain_name` (embed.c lines 76-85): scan the bytes of
`remaining`; each time the separator is seen, the candidate result becomes the
suffix just after it. -/
def plainNameAux (no_path : CStr) : CStr → CStr
  | [] => no_path
  | c :: rest =>
    if c = PATH_SEPARATOR then plainNameAux rest rest
    else plainNameAux no_path rest

/-- `plain_name` (embed.c lines 76-85): the suffix of `filename` after its
last path separator, the whole string when it has none. -/
def plain_name (filename : CStr) : CStr := plainNameAux filename filename

/-- `generate_file_list` (embed.c lines 87-117), modelled by the list of byte
arrays it emits: one entry per input file holding the display name's bytes
followed by the explicit NUL it also prints, then the final `(char[]){0}`
sentinel entry. -/
def generate_file_list : List CStr → Bool → List (List Nat)
  | [], _ => [[0]]
  | f :: rest, preserve_paths =>
    ((if preserve_paths then f else plain_name f) ++ [0])
      :: generate_file_list rest preserve_paths

/-- The run's filesystem: an association from path to readable content. -/
abbrev FileSystem := List (CStr × List Nat)

/-- `fopen(path, "r")` plus reading the whole stream: `none` when the open
fails (a NULL `FILE*`), otherwise the content bytes. -/
def fsLookup : FileSystem → CStr → Option (List Nat)
  | [], _ => none
  | (p, content) :: rest, q => if p = q then some content else fsLookup rest q

/-- Outcome of an emission pass over the input files. -/
inductive PassResult (α : Type) : Type
  | ok (val : α)
  | exitFail (path : CStr)
  | ub
  deriving Repr, DecidableEq

/-- `generate_file_data` (embed.c lines 120-152), modelled by the list of byte
arrays it emits: for each file, `fopen` is checked for NULL before any use
(line 126) and failure is diagnosed and exits; otherwise the entry is the
file's bytes (read with `getc` until `feof`) followed by the appended
`output_hex(fd, 0)` terminator. -/
def generate_file_data (fs : FileSystem) : List CStr → PassResult (List (List Nat))
  | [] => .ok []
  | f :: rest =>
    match fsLookup fs f with
    | none => .exitFail f
    | some content =>
      match generate_file_data fs rest with
      | .ok table => .ok ((content ++ [0]) :: table)
      | .exitFail p => .exitFail p
      | .ub => .ub

/-- `generate_file_data_sizes` (embed.c lines 155-176), modelled by the list of
lengths it emits. The source calls `fseek(infd, 0, SEEK_END)` and
`ftell(infd)` (lines 161-162) BEFORE testing `infd` for NULL (line 163), so a
failed open reaches `fseek` on a null stream — undefined behavior — and the
diagnostic `exit(1)` branch can never run; a successful open records the
file's byte length via seek-to-end plus tell. -/
def generate_file_data_sizes (fs : FileSystem) : List CStr → PassResult (List Nat)
  | [] => .ok []
  | f :: rest =>
    match fsLookup fs f with
    | none => .ub
    | some content =>
      match generate_file_data_sizes fs rest with
      | .ok sizes => .ok (content.length :: sizes)
      | .exitFail p => .exitFail p
      | .ub => .ub

/-- Bool discriminator: did the pass stop with the diagnostic `exit(1)`? -/
def PassResult.isExitFail : PassResult α → Bool
  | .exitFail _ => true
  | _ => false

/-- `0 == strcmp(a, b)` where each argument denotes the bytes of a
NUL-terminated region: comparison stops at the first 0 byte of either side. -/
def c_str_eq (a b : List Nat) : Bool :=
  a.takeWhile (fun c => c != 0) == b.takeWhile (fun c => c != 0)

/-- Result of one call of the generated lookup function. -/
inductive LookupResult : Type
  | found (data : List Nat) (written_length : Option Nat)
  | notFound
  | ub
  deriving Repr, DecidableEq

/-- Bool discriminator: did the lookup return its NULL not-found signal? -/
def LookupResult.isNotFound : LookupResult → Bool
  | .notFound => true
  | _ => false

/-- The emitted names array as an array of pointers: every emitted entry is a
compound-literal array, hence a non-null pointer (`some` of its bytes); a
null pointer would be `none`, and no emitted entry is one. -/
def ptr_table (t : List (List Nat)) : List (Option (List Nat)) := t.map some

/-- The function text emitted by `generate_function` (embed.c lines 179-194),
modelled as the scan it performs: walk `names` (the pointer array) from index
0; the loop guard `EMBEDDED_FILE_NAMES[i] != 0` stops only at a NULL pointer
entry (`none`), returning NULL (`notFound`); reading an index past the end of
any of the three arrays is undefined (`ub`); on the first entry whose
string compares equal to `filename`, the size at the same index is written
when `want_length` holds, and the data pointer at the same index is returned. -/
def embedded_lookup :
    List (Option (List Nat)) → List (List Nat) → List Nat → Bool → CStr → LookupResult
  | [], _, _, _, _ => .ub
  | none :: _, _, _, _, _ => .notFound
  | some entry :: names, data, sizes, want_length, filename =>
    if c_str_eq filename entry then
      if want_length then
        match sizes.head? with
        | none => .ub
        | some sz =>
          match data.head? with
          | none => .ub
          | some d => .found d (some sz)
      else
        match data.head? with
        | none => .ub
        | some d => .found d none
    else
      embedded_lookup names data.tail sizes.tail want_length filename

/-- `generate_define_name` (embed.c lines 204-220): uppercase letters pass
through, lowercase letters are shifted to uppercase by subtracting
`'a' - 'A'` = 32, every other byte becomes an underscore (95). -/
def generate_define_name : CStr → CStr
  | [] => []
  | c :: rest =>
    (if 65 ≤ c ∧ c ≤ 90 then c
     else if 97 ≤ c ∧ c ≤ 122 then c - 32
     else 95) :: generate_define_name rest

/-- The variables `main` accumulates while scanning `argv` (embed.c lines
225-229); `input_files` is the `char* const*` pointer into `argv`, NULL
(`none`) until a bare argument is seen. -/
structure Config : Type where
  function_name : Option CStr
  source_file : Option CStr
  header_file : Option CStr
  input_files : Option (List CStr)
  preserve_paths : Bool
  deriving Repr, DecidableEq

/-- All-NULL initial state of the argument variables. -/
def init_cfg : Config := ⟨none, none, none, none, false⟩

/-- Outcome of the argument loop (embed.c lines 231-268); the three error
constructors are the loop's three `return EXIT_FAILURE` sites: the
options-after-files diagnostic at line 234, `--help` at line 252, and the
unrecognized-option diagnostic at line 258. -/
inductive ParseResult : Type
  | ok (cfg : Config)
  | errOptionAfterFiles
  | errHelp
  | errUnknown (name : CStr)
  deriving Repr, DecidableEq

/-- Bool discriminator for the line-234 diagnostic. -/
def ParseResult.isErrOptionAfterFiles : ParseResult → Bool
  | .errOptionAfterFiles => true
  | _ => false

/-- `argv[arg][0] == '-' && argv[arg][1] == '-'` (embed.c line 232); when the
argument is the single byte `-`, index 1 reads the terminating NUL, which is
not a dash. -/
def is_option_like : CStr → Bool
  | 45 :: 45 :: _ => true
  | _ => false

/-- The argument loop of `main` (embed.c lines 231-268) over the arguments
after `argv[0]`. An option-syntax argument is dispatched on its name; a
value-taking option reads `argv[arg + 1]` (NULL when it is the last
argument, line 240, after which the loop ends) and skips it. The first
non-option argument makes `input_files` point at it and `break`s out of the
loop, so the remaining arguments are never examined. -/
def parse_args : List CStr → Config → ParseResult
  | [], cfg => .ok cfg
  | a :: rest, cfg =>
    if is_option_like a then
      if cfg.input_files.isSome then .errOptionAfterFiles
      else
        let arg_name := a.drop 2
        if arg_name = cstr "source" then
          match rest with
          | [] => .ok { cfg with source_file := none }
          | v :: r => parse_args r { cfg with source_file := some v }
        else if arg_name = cstr "header" then
          match rest with
          | [] => .ok { cfg with header_file := none }
          | v :: r => parse_args r { cfg with header_file := some v }
        else if arg_name = cstr "function" then
          match rest with
          | [] => .ok { cfg with function_name := none }
          | v :: r => parse_args r { cfg with function_name := some v }
        else if arg_name = cstr "help" then .errHelp
        else if arg_name = cstr "preserve-paths" then
          parse_args rest { cfg with preserve_paths := true }
        else .errUnknown arg_name
    else
      .ok { cfg with
            input_files :=
              if cfg.input_files.isSome then cfg.input_files else some (a :: rest) }

/-- How one process run ends: `EXIT_SUCCESS`, a failure exit (`return
EXIT_FAILURE` or `exit(1)`), or undefined behavior reached. -/
inductive ExitKind : Type
  | success
  | failure
  | ub
  deriving Repr, DecidableEq

/-- Observable outcome of a run: its exit kind, the output paths opened with
`fopen(_, "w")` (in order, so created or truncated), and whether the header
artifact was written. -/
structure MainOutcome : Type where
  exit : ExitKind
  opened_for_write : List CStr
  header_written : Bool
  deriving Repr, DecidableEq

/-- `main` after the argument loop (embed.c lines 269-320), over the parsed
configuration. `w` says which paths `fopen(_, "w")` can open. In source
order: missing `--source` is a usage failure (269); a missing header path
only prints a notice (275); missing `--function` is a usage failure (280);
the source output is opened and checked (287); the header output is opened
UNCONDITIONALLY (292) — when no header path was given this passes NULL to
`fopen`, undefined by ISO C, and on the POSIX target the open fails and the
line-293 check exits with failure; then the tables are emitted into the
source: `generate_file_list` first, which dereferences `input_files` — NULL
when no bare argument was given — then the data pass (which may `exit(1)` on
an unopenable file), then the sizes pass (which reaches `fseek` on a null
stream for an unopenable file), then the lookup function; finally the header
is written when a header path was given. -/
def run_with_config (cfg : Config) (fs : FileSystem) (w : CStr → Bool) : MainOutcome :=
  match cfg.source_file with
  | none => ⟨.failure, [], false⟩
  | some src =>
    match cfg.function_name with
    | none => ⟨.failure, [], false⟩
    | some _ =>
      if w src then
        match cfg.header_file with
        | none => ⟨.failure, [src], false⟩
        | some hdr =>
          if w hdr then
            match cfg.input_files with
            | none => ⟨.ub, [src, hdr], false⟩
            | some files =>
              match generate_file_data fs files with
              | .exitFail _ => ⟨.failure, [src, hdr], false⟩
              | .ub => ⟨.ub, [src, hdr], false⟩
              | .ok _ =>
                match generate_file_data_sizes fs files with
                | .exitFail _ => ⟨.failure, [src, hdr], false⟩
                | .ub => ⟨.ub, [src, hdr], false⟩
                | .ok _ => ⟨.success, [src, hdr], true⟩
          else ⟨.failure, [src], false⟩
      else ⟨.failure, [], false⟩

/-- A whole run of `main`: parse `argv[1..]`, then generate; every parse
error prints its diagnostic or usage and exits with failure before any
output path is opened. -/
def run_main (args : List CStr) (fs : FileSystem) (w : CStr → Bool) : MainOutcome :=
  match parse_args args init_cfg with
  | .ok cfg => run_with_config cfg fs w
  | _ => ⟨.failure, [], false⟩

/-! Spec-side definitions, written from the specification's words, to be
compared with the definitions embedded from the source. -/

/-- Is the byte not the path separator? -/
def not_sep (c : Nat) : Bool := c != PATH_SEPARATOR

/-- From the spec's words: a path's final segment, i.e. the path with every
character up to and including its last path-separator stripped — equivalently
the longest suffix free of separators. -/
def last_segment (f : CStr) : CStr :=
  (f.reverse.takeWhile not_sep).reverse

/-- From the claim's words for the include-guard derivation as stated
(digits pass through unchanged): lowercase is uppercased, uppercase and
digits pass through, everything else becomes an underscore. -/
def claimed_guard_char (c : Nat) : Nat :=
  if 97 ≤ c ∧ c ≤ 122 then c - 32
  else if 65 ≤ c ∧ c ≤ 90 then c
  else if 48 ≤ c ∧ c ≤ 57 then c
  else 95

/-- From the amended claim's words: lowercase is uppercased, uppercase passes
through, every other byte — digits included — becomes an underscore. -/
def amended_guard_char (c : Nat) : Nat :=
  if 97 ≤ c ∧ c ≤ 122 then c - 32
  else if 65 ≤ c ∧ c ≤ 90 then c
  else 95

/-- Is the byte an uppercase ASCII letter or an underscore? -/
def upper_or_underscore (c : Nat) : Bool :=
  decide (65 ≤ c ∧ c ≤ 90) || decide (c = 95)

/-- A concrete one-file filesystem used to instantiate the general theorems:
the file `a.txt` with content `hi`. -/
def demo_fs : FileSystem := [(cstr "a.txt", cstr "hi")]

/-- The spec's concrete scenario: `a.txt` with content `hi` and `sub/b.txt`
with content `!`. -/
def demo_fs2 : FileSystem :=
  [(cstr "a.txt", cstr "hi"), (cstr "sub/b.txt", [33])]

/-! Helper lemmas. -/

theorem takeWhile_eq_self_of_all {α : Type} (p : α → Bool) (l : List α)
    (h : l.all p = true) : l.takeWhile p = l := by
  induction l with
  | nil => rfl
  | cons x xs ih =>
    simp only [List.all_cons, Bool.and_eq_true] at h
    simp [List.takeWhile_cons, h.1, ih h.2]

theorem takeWhile_length_lt_of_not_all {α : Type} (p : α → Bool) (l : List α)
    (h : l.all p = false) : (l.takeWhile p).length < l.length := by
  induction l with
  | nil => simp at h
  | cons x xs ih =>
    by_cases hx : p x = true
    · have hxs : xs.all p = false := by
        simpa [List.all_cons, hx] using h
      simpa [List.takeWhile_cons, hx] using ih hxs
    · simp [List.takeWhile_cons, hx]

theorem last_segment_cons_sep (xs : CStr) :
    last_segment (PATH_SEPARATOR :: xs) =
      if xs.all not_sep = true then xs else last_segment xs := by
  unfold last_segment
  rw [List.reverse_cons, List.takeWhile_append]
  by_cases hall : xs.all not_sep = true
  · have hself : xs.reverse.takeWhile not_sep = xs.reverse :=
      takeWhile_eq_self_of_all not_sep _ (by rwa [List.all_reverse])
    rw [if_pos (by rw [hself]), if_pos hall]
    simp [List.takeWhile_cons, not_sep, PATH_SEPARATOR]
  · have hf : xs.all not_sep = false := by simpa using hall
    have hlt : (xs.reverse.takeWhile not_sep).length < xs.reverse.length :=
      takeWhile_length_lt_of_not_all not_sep _ (by rwa [List.all_reverse])
    rw [if_neg (Nat.ne_of_lt hlt), if_neg hall]

theorem last_segment_cons_not_sep (x : Nat) (xs : CStr) (hx : not_sep x = true) :
    last_segment (x :: xs) =
      if xs.all not_sep = true then x :: xs else last_segment xs := by
  unfold last_segment
  rw [List.reverse_cons, List.takeWhile_append]
  by_cases hall : xs.all not_sep = true
  · have hself : xs.reverse.takeWhile not_sep = xs.reverse :=
      takeWhile_eq_self_of_all not_sep _ (by rwa [List.all_reverse])
    rw [if_pos (by rw [hself]), if_pos hall]
    simp [List.takeWhile_cons, hx]
  · have hf : xs.all not_sep = false := by simpa using hall
    have hlt : (xs.reverse.takeWhile not_sep).length < xs.reverse.length :=
      takeWhile_length_lt_of_not_all not_sep _ (by rwa [List.all_reverse])
    rw [if_neg (Nat.ne_of_lt hlt), if_neg hall]

theorem plainNameAux_eq (l : CStr) :
    ∀ acc : CStr, plainNameAux acc l =
      if l.all not_sep = true then acc else last_segment l := by
  induction l with
  | nil => intro acc; rfl
  | cons x xs ih =>
    intro acc
    by_cases hx : x = PATH_SEPARATOR
    · subst hx
      have h1 : plainNameAux acc (PATH_SEPARATOR :: xs) = plainNameAux xs xs := by
        simp [plainNameAux]
      have h2 : (PATH_SEPARATOR :: xs).all not_sep = false := by
        simp [List.all_cons, not_sep]
      rw [h1, ih xs, h2, last_segment_cons_sep]
      simp
    · have hns : not_sep x = true := by simp [not_sep, hx]
      have h1 : plainNameAux acc (x :: xs) = plainNameAux acc xs := by
        simp [plainNameAux, hx]
      have h2 : (x :: xs).all not_sep = xs.all not_sep := by
        simp [List.all_cons, hns]
      rw [h1, ih acc, h2, last_segment_cons_not_sep x xs hns]
      by_cases hall : xs.all not_sep = true
      · simp [hall]
      · simp [hall]

theorem plain_name_eq_last_segment (f : CStr) : plain_name f = last_segment f := by
  rw [plain_name, plainNameAux_eq]
  by_cases hall : f.all not_sep = true
  · rw [if_pos hall]
    unfold last_segment
    rw [takeWhile_eq_self_of_all not_sep _ (by rwa [List.all_reverse]),
      List.reverse_reverse]
  · rw [if_neg hall]

theorem guard_char_eq (c : Nat) :
    (if 65 ≤ c ∧ c ≤ 90 then c else if 97 ≤ c ∧ c ≤ 122 then c - 32 else 95) =
      amended_guard_char c := by
  unfold amended_guard_char
  by_cases h1 : 65 ≤ c ∧ c ≤ 90
  · rw [if_pos h1, if_neg (by omega), if_pos h1]
  · by_cases h2 : 97 ≤ c ∧ c ≤ 122
    · rw [if_neg h1, if_pos h2, if_pos h2]
    · rw [if_neg h1, if_neg h2, if_neg h2, if_neg h1]

theorem amended_guard_char_shape (c : Nat) :
    upper_or_underscore (amended_guard_char c) = true := by
  unfold amended_guard_char upper_or_underscore
  split_ifs with h2 h1 <;> simp [decide_eq_true_eq] <;> omega

/-! Theorems for the claims. -/

/-- C6: for every invocation and input-file list, the name table emitted by
`generate_file_list` is, in order, one entry per input file holding the
display name — the raw path when preserve-paths is set, otherwise the path's
final segment (everything up to and including the last path separator
stripped) — each with its terminating zero byte, followed by the single
all-zero sentinel entry. -/
theorem names_table_is_display_names (files : List CStr) (preserve_paths : Bool) :
    generate_file_list files preserve_paths =
      ((if preserve_paths then files else files.map last_segment).map
        (fun n => n ++ [0])) ++ [[0]] := by
  induction files with
  | nil => cases preserve_paths <;> rfl
  | cons f rest ih =>
    cases preserve_paths <;>
      simp_all [generate_file_list, plain_name_eq_last_segment]

/-- C4 (amended): the include-guard token derived by `generate_define_name`
maps each byte independently — lowercase letters are uppercased, uppercase
letters pass through, and every other byte, digits included, becomes an
underscore — so the token contains only uppercase ASCII letters and
underscores. -/
theorem define_name_amended (s : CStr) :
    generate_define_name s = s.map amended_guard_char ∧
    (generate_define_name s).all upper_or_underscore = true := by
  induction s with
  | nil => exact ⟨rfl, rfl⟩
  | cons c rest ih =>
    refine ⟨?_, ?_⟩
    · simp only [generate_define_name, List.map_cons, guard_char_eq]
      exact congrArg _ ih.1
    · simp only [generate_define_name, List.all_cons, guard_char_eq,
        amended_guard_char_shape, ih.2, Bool.and_self]

/-- C4 counterexample: digits do NOT pass through `generate_define_name`
unchanged — on the header name `a1.h` the code yields `A__H`, while the
claim's digit-preserving derivation would yield `A1_H`. -/
theorem define_name_digit_cex :
    generate_define_name (cstr "a1.h") = cstr "A__H" ∧
    (cstr "a1.h").map claimed_guard_char = cstr "A1_H" ∧
    (generate_define_name (cstr "a1.h") == (cstr "a1.h").map claimed_guard_char) =
      false :=
  ⟨by decide, by decide, by decide⟩

theorem embedded_lookup_all_some (names : List (List Nat)) :
    ∀ data sizes want_length fn,
      (embedded_lookup (ptr_table names) data sizes want_length fn).isNotFound =
        false := by
  induction names with
  | nil => intro data sizes wl fn; rfl
  | cons e ns ih =>
    intro data sizes wl fn
    show (embedded_lookup (some e :: ptr_table ns) data sizes wl fn).isNotFound =
      false
    simp only [embedded_lookup]
    by_cases h : c_str_eq fn e = true
    · rw [if_pos h]
      cases wl with
      | false => cases data <;> rfl
      | true => cases sizes <;> cases data <;> rfl
    · rw [if_neg h]
      exact ih _ _ _ _

theorem sizes_pass_never_diagnoses (fs : FileSystem) :
    ∀ files, (generate_file_data_sizes fs files).isExitFail = false := by
  intro files
  induction files with
  | nil => rfl
  | cons f rest ih =>
    simp only [generate_file_data_sizes]
    cases hf : fsLookup fs f with
    | none => rfl
    | some content =>
      cases hr : generate_file_data_sizes fs rest with
      | ok sizes => rfl
      | exitFail p => rw [hr] at ih; exact ih
      | ub => rfl

theorem generate_file_list_eq_map (files : List CStr) (p : Bool) :
    generate_file_list files p =
      (files.map (fun f => (if p then f else plain_name f) ++ [0])) ++ [[0]] := by
  induction files with
  | nil => rfl
  | cons f rest ih => simp [generate_file_list, ih]

theorem generate_file_data_ok_eq (fs : FileSystem) :
    ∀ files table, generate_file_data fs files = .ok table →
      table = files.map (fun f => (fsLookup fs f).getD [] ++ [0]) := by
  intro files
  induction files with
  | nil => intro table h; cases h; rfl
  | cons g rest ih =>
    intro table h
    revert h
    simp only [generate_file_data]
    cases hg : fsLookup fs g with
    | none => intro h; exact PassResult.noConfusion h
    | some gc =>
      cases hdr : generate_file_data fs rest with
      | ok tr => intro h; cases h; simp [hg, ih tr hdr]
      | exitFail p => intro h; exact PassResult.noConfusion h
      | ub => intro h; exact PassResult.noConfusion h

theorem generate_file_data_sizes_ok_eq (fs : FileSystem) :
    ∀ files sizes, generate_file_data_sizes fs files = .ok sizes →
      sizes = files.map (fun f => ((fsLookup fs f).getD []).length) := by
  intro files
  induction files with
  | nil => intro sizes h; cases h; rfl
  | cons g rest ih =>
    intro sizes h
    revert h
    simp only [generate_file_data_sizes]
    cases hg : fsLookup fs g with
    | none => intro h; exact PassResult.noConfusion h
    | some gc =>
      cases hsr : generate_file_data_sizes fs rest with
      | ok sr => intro h; cases h; simp [hg, ih sr hsr]
      | exitFail p => intro h; exact PassResult.noConfusion h
      | ub => intro h; exact PassResult.noConfusion h

/-- C1: the generated lookup function cannot honor its not-found contract.
Over any name table emitted by `generate_file_list`, every entry — the
`(char[]){0}` sentinel included — is a non-null pointer, so the generated
loop guard `EMBEDDED_FILE_NAMES[i] != 0` never stops the scan and the NULL
not-found return is unreachable (first conjunct). Concretely, with the one
embedded file `a.txt` (content `hi`), the present name `a.txt` is found with
the correct payload and size written (middle conjuncts, the part of the
claim that does hold), while the absent name `b.txt` drives the scan past
the end of the arrays — undefined behavior, not a NULL return (last
conjunct). -/
theorem lookup_sentinel_bug :
    (∀ (files : List CStr) (preserve_paths : Bool) (data : List (List Nat))
        (sizes : List Nat) (want_length : Bool) (fn : CStr),
      (embedded_lookup (ptr_table (generate_file_list files preserve_paths))
        data sizes want_length fn).isNotFound = false) ∧
    generate_file_data demo_fs [cstr "a.txt"] = .ok [cstr "hi" ++ [0]] ∧
    generate_file_data_sizes demo_fs [cstr "a.txt"] = .ok [2] ∧
    embedded_lookup (ptr_table (generate_file_list [cstr "a.txt"] false))
      [cstr "hi" ++ [0]] [2] true (cstr "a.txt") =
      .found (cstr "hi" ++ [0]) (some 2) ∧
    embedded_lookup (ptr_table (generate_file_list [cstr "a.txt"] false))
      [cstr "hi" ++ [0]] [2] true (cstr "b.txt") = .ub :=
  ⟨fun files preserve_paths => embedded_lookup_all_some
      (generate_file_list files preserve_paths),
    by decide, by decide, by decide, by decide⟩

/-- C2: for every input file that opens successfully (in a run where both
the data and the size passes complete), the data-table entry at the file's
index is the file's content followed by the single appended zero terminator
— so stripping that terminator recovers the content byte-for-byte — and the
size-table entry at the same index is the content's exact byte count. -/
theorem data_and_size_tables_faithful :
    ∀ (fs : FileSystem) (files : List CStr) (table : List (List Nat))
      (sizes : List Nat) (i : Nat) (f : CStr) (content : List Nat),
      generate_file_data fs files = .ok table →
      generate_file_data_sizes fs files = .ok sizes →
      files[i]? = some f →
      fsLookup fs f = some content →
      table[i]? = some (content ++ [0]) ∧
      (content ++ [0]).dropLast = content ∧
      sizes[i]? = some content.length := by
  intro fs files
  induction files with
  | nil =>
    intro table sizes i f content hd hs hi hc
    simp at hi
  | cons g rest ih =>
    intro table sizes i f content hd hs hi hc
    revert hd hs
    simp only [generate_file_data, generate_file_data_sizes]
    cases hg : fsLookup fs g with
    | none => intro hd hs; exact PassResult.noConfusion hd
    | some gc =>
      cases hdr : generate_file_data fs rest with
      | exitFail p => intro hd hs; exact PassResult.noConfusion hd
      | ub => intro hd hs; exact PassResult.noConfusion hd
      | ok tr =>
        cases hsr : generate_file_data_sizes fs rest with
        | exitFail p => intro hd hs; exact PassResult.noConfusion hs
        | ub => intro hd hs; exact PassResult.noConfusion hs
        | ok sr =>
          intro hd hs
          cases hd
          cases hs
          cases i with
          | zero =>
            simp only [List.getElem?_cons_zero, Option.some.injEq] at hi
            subst hi
            rw [hg] at hc
            cases hc
            refine ⟨by simp, by simp, by simp⟩
          | succ n =>
            simp only [List.getElem?_cons_succ] at hi
            simp only [List.getElem?_cons_succ]
            exact ih tr sr n f content hdr hsr hi hc

/-- Witness for C2 at the file `a.txt` with content `hi`. -/
theorem data_and_size_tables_faithful_witness :
    ([cstr "hi" ++ [0]] : List (List Nat))[0]? = some (cstr "hi" ++ [0]) ∧
    (cstr "hi" ++ [0]).dropLast = cstr "hi" ∧
    ([2] : List Nat)[0]? = some (cstr "hi").length :=
  data_and_size_tables_faithful demo_fs [cstr "a.txt"] [cstr "hi" ++ [0]] [2] 0
    (cstr "a.txt") (cstr "hi") (by decide) (by decide) (by decide) (by decide)

/-- C5: the size-table pass cannot fail the way the data-table pass does.
`generate_file_data_sizes` never reaches its diagnostic `exit(1)` (first
conjunct): when a file cannot be opened, `fseek`/`ftell` are applied to the
NULL stream before the null test, which is undefined behavior, as the
concrete unopenable file shows (second conjunct); the data pass, by
contrast, diagnoses the very same file and exits (third conjunct). -/
theorem sizes_open_failure_is_ub :
    (∀ (fs : FileSystem) (files : List CStr),
      (generate_file_data_sizes fs files).isExitFail = false) ∧
    generate_file_data_sizes demo_fs [cstr "missing.txt"] = .ub ∧
    generate_file_data demo_fs [cstr "missing.txt"] =
      .exitFail (cstr "missing.txt") :=
  ⟨fun fs files => sizes_pass_never_diagnoses fs files, by decide, by decide⟩

/-- C7: in every run whose data and size passes complete, the three tables
are index-aligned: the name table is one display-name entry per input file,
in order, followed by exactly one all-zero sentinel (so it has n+1 entries),
and the data and size tables are each exactly one entry per input file, in
the same order, entry i of each derived from input file i. -/
theorem tables_index_aligned :
    ∀ (fs : FileSystem) (files : List CStr) (preserve_paths : Bool)
      (table : List (List Nat)) (sizes : List Nat),
      generate_file_data fs files = .ok table →
      generate_file_data_sizes fs files = .ok sizes →
      generate_file_list files preserve_paths =
        (files.map (fun f => (if preserve_paths then f else plain_name f) ++ [0]))
          ++ [[0]] ∧
      (generate_file_list files preserve_paths).length = files.length + 1 ∧
      table = files.map (fun f => (fsLookup fs f).getD [] ++ [0]) ∧
      sizes = files.map (fun f => ((fsLookup fs f).getD []).length) ∧
      table.length = files.length ∧
      sizes.length = files.length := by
  intro fs files preserve_paths table sizes hd hs
  refine ⟨generate_file_list_eq_map files preserve_paths, ?_,
    generate_file_data_ok_eq fs files table hd,
    generate_file_data_sizes_ok_eq fs files sizes hs, ?_, ?_⟩
  · simp [generate_file_list_eq_map]
  · simp [generate_file_data_ok_eq fs files table hd]
  · simp [generate_file_data_sizes_ok_eq fs files sizes hs]

/-- Witness for C7 at the spec's concrete scenario: `a.txt` (content `hi`)
and `sub/b.txt` (content `!`), preserve-paths off. -/
theorem tables_index_aligned_witness :
    generate_file_list [cstr "a.txt", cstr "sub/b.txt"] false =
      ([cstr "a.txt", cstr "sub/b.txt"].map
        (fun f => (if false then f else plain_name f) ++ [0])) ++ [[0]] ∧
    (generate_file_list [cstr "a.txt", cstr "sub/b.txt"] false).length =
      [cstr "a.txt", cstr "sub/b.txt"].length + 1 ∧
    ([[104, 105, 0], [33, 0]] : List (List Nat)) =
      [cstr "a.txt", cstr "sub/b.txt"].map
        (fun f => (fsLookup demo_fs2 f).getD [] ++ [0]) ∧
    ([2, 1] : List Nat) =
      [cstr "a.txt", cstr "sub/b.txt"].map
        (fun f => ((fsLookup demo_fs2 f).getD []).length) ∧
    ([[104, 105, 0], [33, 0]] : List (List Nat)).length =
      [cstr "a.txt", cstr "sub/b.txt"].length ∧
    ([2, 1] : List Nat).length = [cstr "a.txt", cstr "sub/b.txt"].length :=
  tables_index_aligned demo_fs2 [cstr "a.txt", cstr "sub/b.txt"] false
    [[104, 105, 0], [33, 0]] [2, 1] (by decide) (by decide)

/-- C3: omitting `--header` is fatal in the code, not a notice-and-continue.
Whatever the function name, input files, filesystem and writable paths, a
configuration whose header path is NULL reaches the unconditional
`fopen(header_file, "w")` — undefined by ISO C for a NULL path; on the POSIX
target the open fails — and `main` returns `EXIT_FAILURE` after opening only
the source output, producing no header. -/
theorem missing_header_fatal :
    ∀ (fname src : CStr) (files : Option (List CStr)) (p : Bool)
      (fs : FileSystem) (w : CStr → Bool),
      w src = true →
      run_with_config ⟨some fname, some src, none, files, p⟩ fs w =
        ⟨.failure, [src], false⟩ := by
  intro fname src files p fs w hw
  simp [run_with_config, hw]

/-- Witness for C3: `embed --function get_file --source out.c a.txt` with
`a.txt` readable and every output path writable still exits with failure. -/
theorem missing_header_fatal_witness :
    run_with_config ⟨some (cstr "get_file"), some (cstr "out.c"), none,
        some [cstr "a.txt"], false⟩ demo_fs (fun _ => true) =
      ⟨.failure, [cstr "out.c"], false⟩ :=
  missing_header_fatal (cstr "get_file") (cstr "out.c") (some [cstr "a.txt"])
    false demo_fs (fun _ => true) rfl

theorem parse_args_no_oaf :
    ∀ (n : Nat) (args : List CStr), args.length ≤ n →
      ∀ cfg : Config, cfg.input_files = none →
        (parse_args args cfg).isErrOptionAfterFiles = false := by
  intro n
  induction n with
  | zero =>
    intro args h cfg hc
    cases args with
    | nil => rfl
    | cons a r => simp at h
  | succ m ih =>
    intro args h cfg hc
    cases args with
    | nil => rfl
    | cons a rest =>
      unfold parse_args
      by_cases hopt : is_option_like a = true
      · rw [if_pos hopt]
        simp only [hc, Option.isSome_none, Bool.false_eq_true, if_false]
        split_ifs with hsrc hhdr hfn hhelp hpp
        · cases rest with
          | nil => rfl
          | cons v r =>
            exact ih r (by simp at h; omega) _ rfl
        · cases rest with
          | nil => rfl
          | cons v r =>
            exact ih r (by simp at h; omega) _ rfl
        · cases rest with
          | nil => rfl
          | cons v r =>
            exact ih r (by simp at h; omega) _ rfl
        · rfl
        · exact ih rest (by simp at h; omega) _ rfl
        · rfl
      · rw [if_neg hopt]
        rfl

/-- C8 (amended): an option-syntax argument appearing after the first
input-file argument is never diagnosed: option parsing stops at the first
non-option argument, which together with every later argument — `--`-prefixed
or not — becomes the input-file list, so the parse loop's
options-after-files usage error is unreachable from the initial state (first
conjunct); concretely, `--header x` after the input file `a.txt` is simply
swallowed into the input-file list (second conjunct). -/
theorem option_after_file_amended :
    (∀ args : List CStr,
      (parse_args args init_cfg).isErrOptionAfterFiles = false) ∧
    parse_args [cstr "--function", cstr "get_file", cstr "--source",
        cstr "out.c", cstr "a.txt", cstr "--header", cstr "x"] init_cfg =
      .ok ⟨some (cstr "get_file"), some (cstr "out.c"), none,
        some [cstr "a.txt", cstr "--header", cstr "x"], false⟩ :=
  ⟨fun args => parse_args_no_oaf args.length args (Nat.le_refl _) init_cfg rfl,
    by decide⟩

/-- C8 counterexample: with `--extra` placed after the input file `a.txt`,
the process does not print usage and fail — parsing treats `--extra` as an
input file, and when a file of that name exists the whole run completes with
a success exit. -/
theorem option_after_file_cex :
    parse_args [cstr "--function", cstr "get_file", cstr "--source",
        cstr "out.c", cstr "--header", cstr "out.h", cstr "a.txt",
        cstr "--extra"] init_cfg =
      .ok ⟨some (cstr "get_file"), some (cstr "out.c"), some (cstr "out.h"),
        some [cstr "a.txt", cstr "--extra"], false⟩ ∧
    run_main [cstr "--function", cstr "get_file", cstr "--source",
        cstr "out.c", cstr "--header", cstr "out.h", cstr "a.txt",
        cstr "--extra"]
      [(cstr "a.txt", cstr "hi"), (cstr "--extra", [120])] (fun _ => true) =
      ⟨.success, [cstr "out.c", cstr "out.h"], true⟩ :=
  ⟨by decide, by decide⟩

/-- C9: when the parsed configuration is missing `--source` or missing
`--function`, the run exits with failure before any `fopen(_, "w")`, so no
output path is created, truncated or modified. -/
theorem missing_required_option_failure :
    ∀ (args : List CStr) (fs : FileSystem) (w : CStr → Bool) (cfg : Config),
      parse_args args init_cfg = .ok cfg →
      (cfg.source_file.isNone || cfg.function_name.isNone) = true →
      (run_main args fs w).exit = .failure ∧
      (run_main args fs w).opened_for_write = [] := by
  intro args fs w cfg hp hmiss
  unfold run_main
  rw [hp]
  rcases hsrc : cfg.source_file with _ | src
  · simp [run_with_config, hsrc]
  · rcases hfn : cfg.function_name with _ | fn
    · simp [run_with_config, hsrc, hfn]
    · rw [hsrc, hfn] at hmiss
      simp at hmiss

/-- Witness for C9: `embed --function f` (no `--source`) fails and opens
nothing. -/
theorem missing_required_option_failure_witness :
    (run_main [cstr "--function", cstr "f"] demo_fs (fun _ => true)).exit =
      .failure ∧
    (run_main [cstr "--function", cstr "f"] demo_fs
        (fun _ => true)).opened_for_write = [] :=
  missing_required_option_failure [cstr "--function", cstr "f"] demo_fs
    (fun _ => true) ⟨some (cstr "f"), none, none, none, false⟩
    (by decide) (by decide)

/-- C10: an invocation with all options but no bare input-file argument
leaves the `input_files` pointer NULL through parsing (first conjunct), and
a run over such a configuration — outputs writable, so execution reaches the
emitters — ends in undefined behavior: `generate_file_list`'s scan
dereferences the NULL input-file pointer (second conjunct). -/
theorem empty_input_list_null_deref :
    ∀ (fname src hdr : CStr) (fs : FileSystem) (w : CStr → Bool) (p : Bool),
      w src = true → w hdr = true →
      parse_args [cstr "--function", fname, cstr "--source", src,
          cstr "--header", hdr] init_cfg =
        .ok ⟨some fname, some src, some hdr, none, false⟩ ∧
      run_with_config ⟨some fname, some src, some hdr, none, p⟩ fs w =
        ⟨.ub, [src, hdr], false⟩ := by
  intro fname src hdr fs w p hws hwh
  constructor
  · rfl
  · simp [run_with_config, hws, hwh]

/-- Witness for C10: `embed --function get_file --source out.c --header
out.h` with writable outputs parses to a NULL input-file list and the run
reaches the null dereference. -/
theorem empty_input_list_null_deref_witness :
    parse_args [cstr "--function", cstr "get_file", cstr "--source",
        cstr "out.c", cstr "--header", cstr "out.h"] init_cfg =
      .ok ⟨some (cstr "get_file"), some (cstr "out.c"), some (cstr "out.h"),
        none, false⟩ ∧
    run_with_config ⟨some (cstr "get_file"), some (cstr "out.c"),
        some (cstr "out.h"), none, false⟩ demo_fs (fun _ => true) =
      ⟨.ub, [cstr "out.c", cstr "out.h"], false⟩ :=
  empty_input_list_null_deref (cstr "get_file") (cstr "out.c") (cstr "out.h")
    demo_fs (fun _ => true) false rfl rfl

end Embed

